import Mathlib

/-!
Shallow embedding of the QR bus-ticket booking system (`ticket_gui_db.py`):
the sqlite-backed record store, the QR payload codec and the booking /
validation operations.  GUI rendering, file dialogs and camera capture are
acquisition plumbing outside the embedded core; the raw decoded text they
produce, and the wall-clock timestamp, are parameters here.
-/

namespace TicketSys

/-- Python's substring test `pat in s` (used at lines 113 and 134 of the
source), on character lists: `pat` occurs somewhere in the text. -/
def occursIn (pat : List Char) : List Char → Bool
  | [] => pat.isEmpty
  | c :: t => pat.isPrefixOf (c :: t) || occursIn pat t

/-- Python's `s.replace(pat, rep)` for a non-empty pattern, fuelled so the
recursion is structural: replace every (leftmost, non-overlapping) occurrence
of `pat` by `rep`.  Each step consumes at least one character, so any fuel of
at least the list's length never runs out. -/
def replaceAllF (pat rep : List Char) : Nat → List Char → List Char
  | _, [] => []
  | 0, l => l
  | fuel + 1, c :: t =>
    if pat.isPrefixOf (c :: t) ∧ pat ≠ [] then
      rep ++ replaceAllF pat rep fuel (t.drop (pat.length - 1))
    else
      c :: replaceAllF pat rep fuel t

/-- Python's `s.replace(pat, rep)` for a non-empty pattern.  The only pattern
the program uses is the non-empty marker `"BookingID:"`. -/
def replaceAll (pat rep l : List Char) : List Char :=
  replaceAllF pat rep l.length l

/-- Python's `str.strip()` (line 63): remove leading and trailing whitespace;
whitespace is modelled by `Char.isWhitespace`. -/
def pyStrip (s : String) : String :=
  ⟨(s.data.dropWhile Char.isWhitespace).rdropWhile Char.isWhitespace⟩

/-- Numeric value of a decimal digit character. -/
def digitVal (c : Char) : Nat := c.toNat - 48

/-- Numeric value of a string of decimal digit characters, most significant
first. -/
def decVal (l : List Char) : Nat := l.foldl (fun a c => 10 * a + digitVal c) 0

theorem digitChar_isDigit {m : Nat} (h : m < 10) :
    (Nat.digitChar m).isDigit = true := by
  interval_cases m <;> decide

theorem digitVal_digitChar {m : Nat} (h : m < 10) :
    digitVal (Nat.digitChar m) = m := by
  interval_cases m <;> decide

theorem toDigitsCore_shift (f : Nat) : ∀ (n : Nat) (rest : List Char),
    Nat.toDigitsCore 10 f n rest = Nat.toDigitsCore 10 f n [] ++ rest := by
  induction f with
  | zero => intro n rest; simp [Nat.toDigitsCore]
  | succ f ih =>
    intro n rest
    simp only [Nat.toDigitsCore]
    by_cases h : n / 10 = 0
    · simp [h]
    · simp only [if_neg h]
      rw [ih (n / 10) (Nat.digitChar (n % 10) :: rest),
        ih (n / 10) [Nat.digitChar (n % 10)]]
      simp

theorem toDigitsCore_all_digits (f : Nat) : ∀ (n : Nat) (rest : List Char),
    (∀ c ∈ rest, c.isDigit = true) →
    ∀ c ∈ Nat.toDigitsCore 10 f n rest, c.isDigit = true := by
  induction f with
  | zero => intro n rest hrest; simpa [Nat.toDigitsCore] using hrest
  | succ f ih =>
    intro n rest hrest
    have hd : (Nat.digitChar (n % 10)).isDigit = true :=
      digitChar_isDigit (Nat.mod_lt n (by norm_num))
    simp only [Nat.toDigitsCore]
    by_cases h : n / 10 = 0
    · simp only [if_pos h]
      intro c hc
      rcases List.mem_cons.mp hc with hc | hc
      · simpa [hc] using hd
      · exact hrest c hc
    · simp only [if_neg h]
      refine ih (n / 10) (Nat.digitChar (n % 10) :: rest) ?_
      intro c hc
      rcases List.mem_cons.mp hc with hc | hc
      · simpa [hc] using hd
      · exact hrest c hc

theorem toDigitsCore_eq_nil (f : Nat) : ∀ (n : Nat) (rest : List Char),
    Nat.toDigitsCore 10 f n rest = [] → rest = [] ∧ f = 0 := by
  induction f with
  | zero => intro n rest h; exact ⟨h, rfl⟩
  | succ f ih =>
    intro n rest h
    simp only [Nat.toDigitsCore] at h
    by_cases hz : n / 10 = 0
    · rw [if_pos hz] at h
      exact absurd h (List.cons_ne_nil _ _)
    · rw [if_neg hz] at h
      have := (ih (n / 10) (Nat.digitChar (n % 10) :: rest) h).1
      exact absurd this (List.cons_ne_nil _ _)

theorem decVal_concat (l : List Char) (c : Char) :
    decVal (l ++ [c]) = 10 * decVal l + digitVal c := by
  simp [decVal, List.foldl_append]

theorem decVal_toDigitsCore (f : Nat) : ∀ n : Nat, n < f →
    decVal (Nat.toDigitsCore 10 f n []) = n := by
  induction f with
  | zero => intro n h; omega
  | succ f ih =>
    intro n h
    simp only [Nat.toDigitsCore]
    by_cases hz : n / 10 = 0
    · rw [if_pos hz]
      have hn : n < 10 := by omega
      simp [decVal, digitVal_digitChar (Nat.mod_lt n (by norm_num))]
      omega
    · rw [if_neg hz]
      rw [toDigitsCore_shift f (n / 10) [Nat.digitChar (n % 10)]]
      rw [decVal_concat]
      rw [ih (n / 10) (by omega)]
      rw [digitVal_digitChar (Nat.mod_lt n (by norm_num))]
      omega

theorem repr_data (n : Nat) :
    (Nat.repr n).data = Nat.toDigitsCore 10 (n + 1) n [] := rfl

theorem repr_all_digits (n : Nat) :
    ∀ c ∈ (Nat.repr n).data, c.isDigit = true := by
  rw [repr_data]
  exact toDigitsCore_all_digits (n + 1) n [] (by intro c hc; cases hc)

theorem repr_data_ne_nil (n : Nat) : (Nat.repr n).data ≠ [] := by
  rw [repr_data]
  intro h
  exact absurd (toDigitsCore_eq_nil (n + 1) n [] h).2 (by omega)

theorem decVal_repr (n : Nat) : decVal (Nat.repr n).data = n := by
  rw [repr_data]
  exact decVal_toDigitsCore (n + 1) n (Nat.lt_succ_self n)

theorem toString_nat_eq_repr (n : Nat) : toString n = Nat.repr n := rfl

/-! Data model: the two sqlite tables (lines 20-39).  `status` and `method`
are TEXT columns, so they are strings here, not enumerations; the code only
ever stores `"Booked"` (the column default) and `"Validated"` for status and
`"Image"` / `"Webcam"` for method. -/

/-- A row of the `bookings` table (lines 20-29).  The REAL `fare` column is
embedded as a rational number. -/
structure Booking where
  id : Nat
  passenger : String
  route : String
  time : String
  fare : Rat
  status : String
deriving DecidableEq

/-- A row of the `validation_logs` table (lines 31-39).  `bookingId` keeps the
raw TEXT value the code binds to the INTEGER column; sqlite would store it
under INTEGER affinity, which no specified behaviour observes. -/
structure VLog where
  logId : Nat
  bookingId : String
  method : String
  timestamp : String
deriving DecidableEq

/-- The live database: both tables with their AUTOINCREMENT counters. -/
structure DBState where
  bookings : List Booking
  logs : List VLog
  nextBookingId : Nat
  nextLogId : Nat
deriving DecidableEq

/-- One row of the route catalog CSV, as `book_ticket` reads it (line 69). -/
structure Route where
  busNo : String
  src : String
  dest : String
  time : String
  fare : Rat
deriving DecidableEq

/-- Model of sqlite's INTEGER-affinity conversion applied when the TEXT value
bound at `WHERE id=?` (lines 117-118) is compared with the INTEGER `id`
column: a non-empty decimal text denotes its numeric value, any other text
matches no row.  (sqlite also accepts signed, spaced or fractional numeric
texts; the program only ever produces plain decimal texts.) -/
def sqliteNatOfText (s : String) : Option Nat :=
  if s.data ≠ [] ∧ s.data.all (fun c => c.isDigit) then some (decVal s.data)
  else none

/-- Whether the TEXT id value `s` matches the INTEGER booking id `n` in
`UPDATE bookings SET status=? WHERE id=?`. -/
def idMatch (s : String) (n : Nat) : Bool :=
  match sqliteNatOfText s with
  | some m => m == n
  | none => false

/-! The QR payload codec. -/

/-- The literal marker the validators look for (lines 113, 116, 134, 135). -/
def marker : String := "BookingID:"

/-- Rendering of the REAL fare into the payload.  The code formats a Python
float; the exact text is irrelevant to every specified behaviour (it sits
after the last `|` of the payload), only that it is a deterministic function
of the fare. -/
def fareText (q : Rat) : String := toString q.num ++ "/" ++ toString q.den

/-- The payload f-string of line 78:
`BookingID:{id}|Passenger:{p}|Route:{r}|Time:{t}|Fare:{f}`. -/
def encode (b : Booking) : String :=
  "BookingID:" ++ toString b.id ++ "|Passenger:" ++ b.passenger ++
    "|Route:" ++ b.route ++ "|Time:" ++ b.time ++ "|Fare:" ++ fareText b.fare

/-- The one decode failure the code distinguishes (lines 113-115): the raw
text does not contain the marker. -/
inductive DecodeErr where
  | formatError
deriving DecidableEq

/-- Lines 113-116 (and identically 134-135): reject text without the marker,
otherwise `qr_text.split("|")[0].replace("BookingID:","")` — the prefix of
the text before the first `|` (the whole text if none), with every occurrence
of the marker removed. -/
def decode (s : String) : Except DecodeErr String :=
  if occursIn marker.data s.data then
    Except.ok ⟨replaceAll marker.data [] (s.data.takeWhile (fun c => c != '|'))⟩
  else
    Except.error DecodeErr.formatError

/-- The drop of text up to and including the first occurrence of `pat`, if
`pat` occurs at all. -/
def afterFirst (pat : List Char) : List Char → Option (List Char)
  | [] => if pat.isEmpty then some [] else none
  | c :: t =>
    if pat.isPrefixOf (c :: t) then some ((c :: t).drop pat.length)
    else afterFirst pat t

/-- Decoder as the specification words it: fail without the marker, otherwise
return the substring between the (first) marker and the first `|` that
follows it, or the end of the text.  Stated only to be compared with
`decode`, which is the code's behaviour. -/
def specDecode (s : String) : Except DecodeErr String :=
  match afterFirst marker.data s.data with
  | some tail => Except.ok ⟨tail.takeWhile (fun c => c != '|')⟩
  | none => Except.error DecodeErr.formatError

/-! The booking service. -/

-- Decidable equality of results, for evaluating the operations at concrete
-- inputs.
deriving instance DecidableEq for Except

/-- The one booking failure (lines 65-67): empty (stripped) passenger name or
no route selected. -/
inductive BookErr where
  | validationError
deriving DecidableEq

/-- `book_ticket` (lines 62-93): strip the entered name, require a name and a
route selection (else warn and return with no store effect), insert the
booking — status takes the column default `"Booked"`, AUTOINCREMENT assigns
the next id — and build the QR payload from it.  The GUI steps (PNG file,
dialog windows, table refresh) have no store effect and are omitted. -/
def book_ticket (st : DBState) (nameInput : String) (sel : Option Route) :
    Except BookErr (DBState × Booking × String) :=
  let passenger := pyStrip nameInput
  match sel with
  | none => Except.error BookErr.validationError
  | some r =>
    if passenger = "" then Except.error BookErr.validationError
    else
      let b : Booking :=
        { id := st.nextBookingId, passenger := passenger,
          route := r.busNo ++ ": " ++ r.src ++ "-" ++ r.dest,
          time := r.time, fare := r.fare, status := "Booked" }
      Except.ok
        ({ st with bookings := st.bookings ++ [b],
                   nextBookingId := st.nextBookingId + 1 }, b, encode b)

/-- `UPDATE bookings SET status='Validated' WHERE id=?` with the decoded TEXT
id (lines 117-119): every row whose id matches under INTEGER affinity is
updated; a non-matching id updates nothing, without error. -/
def markValidated (st : DBState) (bid : String) : DBState :=
  { st with bookings :=
      st.bookings.map fun b =>
        if idMatch bid b.id then { b with status := "Validated" } else b }

/-- `add_log` (lines 96-101): insert one `validation_logs` row.  The code
stamps `datetime.now()`; the timestamp is a parameter here. -/
def add_log (st : DBState) (bookingId method timestamp : String) : DBState :=
  { st with
      logs := st.logs ++
        [{ logId := st.nextLogId, bookingId := bookingId, method := method,
           timestamp := timestamp }],
      nextLogId := st.nextLogId + 1 }

/-- The shared validation logic of `validate_from_image` (lines 104-122) and
`validate_via_webcam` (lines 125-152) once the acquisition adapter has
produced the raw decoded text: reject text without the marker (no store
effect), otherwise extract the id text, update the booking row, then append
one log entry with the supplied method. -/
def validate (st : DBState) (rawText method timestamp : String) :
    Except DecodeErr (DBState × String) :=
  match decode rawText with
  | Except.error e => Except.error e
  | Except.ok bid =>
    Except.ok (add_log (markValidated st bid) bid method timestamp, bid)

/-- `validate_from_image` passes method `"Image"` (line 120). -/
def validate_from_image (st : DBState) (rawText timestamp : String) :
    Except DecodeErr (DBState × String) :=
  validate st rawText "Image" timestamp

/-- `validate_via_webcam` passes method `"Webcam"` (line 139). -/
def validate_via_webcam (st : DBState) (rawText timestamp : String) :
    Except DecodeErr (DBState × String) :=
  validate st rawText "Webcam" timestamp

/-! Database setup (lines 14-40): the script drops both tables if they exist
and recreates them empty before any operation runs. -/

/-- Whatever `tickets.db` held before the script starts: each table either
absent or present with its rows and its next AUTOINCREMENT id. -/
structure RawDB where
  bookingsTab : Option (List Booking × Nat)
  logsTab : Option (List VLog × Nat)
deriving DecidableEq

/-- `DROP TABLE IF EXISTS bookings` (line 17): no error whether or not the
table exists. -/
def dropBookingsTable (d : RawDB) : RawDB := { d with bookingsTab := none }

/-- `DROP TABLE IF EXISTS validation_logs` (line 18). -/
def dropLogsTable (d : RawDB) : RawDB := { d with logsTab := none }

/-- `CREATE TABLE bookings ...` (lines 20-29): a fresh empty table whose
AUTOINCREMENT id assignment starts at 1. -/
def createBookingsTable (d : RawDB) : RawDB :=
  { d with bookingsTab := some ([], 1) }

/-- `CREATE TABLE validation_logs ...` (lines 31-39). -/
def createLogsTable (d : RawDB) : RawDB :=
  { d with logsTab := some ([], 1) }

/-- The setup block, lines 17-40, in program order. -/
def dbSetup (d : RawDB) : RawDB :=
  createLogsTable (createBookingsTable (dropLogsTable (dropBookingsTable d)))

/-- The live state read off a raw database in which both tables exist. -/
def loadState (d : RawDB) : Option DBState :=
  match d.bookingsTab, d.logsTab with
  | some (bs, nb), some (ls, nl) =>
    some { bookings := bs, logs := ls, nextBookingId := nb, nextLogId := nl }
  | _, _ => none

/-- The state every run starts from. -/
def initState : DBState :=
  { bookings := [], logs := [], nextBookingId := 1, nextLogId := 1 }

/-! Reachability: states produced by any sequence of (successful) booking and
validation operations from the fresh store. -/

/-- One successful store-changing operation. -/
inductive Step : DBState → DBState → Prop where
  | bookStep {st st' : DBState} (nameInput : String) (sel : Option Route)
      (b : Booking) (payload : String)
      (h : book_ticket st nameInput sel = Except.ok (st', b, payload)) :
      Step st st'
  | validateStep {st st' : DBState} (rawText method timestamp : String)
      (bid : String)
      (h : validate st rawText method timestamp = Except.ok (st', bid)) :
      Step st st'

/-- States reachable from the fresh store. -/
def Reach (st : DBState) : Prop :=
  Relation.ReflTransGen Step initState st

/-! Lemmas about the string primitives. -/

theorem isPrefixOf_append_self (pat r : List Char) :
    pat.isPrefixOf (pat ++ r) = true := by
  induction pat with
  | nil => simp
  | cons a t ih => simp [List.isPrefixOf, ih]

theorem occursIn_append_left (pat r : List Char) (hp : pat ≠ []) :
    occursIn pat (pat ++ r) = true := by
  cases pat with
  | nil => exact absurd rfl hp
  | cons c t =>
    have h := isPrefixOf_append_self (c :: t) r
    simp only [List.cons_append] at h
    simp [occursIn, h]

theorem replaceAllF_no_occ (pat rep : List Char) :
    ∀ (fuel : Nat) (l : List Char),
    occursIn pat l = false → replaceAllF pat rep fuel l = l := by
  intro fuel
  induction fuel with
  | zero => intro l _; cases l <;> rfl
  | succ f ih =>
    intro l h
    cases l with
    | nil => rfl
    | cons c t =>
      simp only [occursIn, Bool.or_eq_false_iff] at h
      simp only [replaceAllF]
      rw [if_neg (by simp [h.1])]
      rw [ih t h.2]

theorem replaceAll_no_occ (pat rep l : List Char)
    (h : occursIn pat l = false) : replaceAll pat rep l = l :=
  replaceAllF_no_occ pat rep l.length l h

theorem replaceAll_pat_append (pat rep l : List Char) (hp : pat ≠ [])
    (h : occursIn pat l = false) :
    replaceAll pat rep (pat ++ l) = rep ++ l := by
  cases pat with
  | nil => exact absurd rfl hp
  | cons c t =>
    show replaceAllF (c :: t) rep ((c :: t) ++ l).length ((c :: t) ++ l) =
      rep ++ l
    have hlen : ((c :: t) ++ l).length = (t.length + l.length) + 1 := by
      simp only [List.length_append, List.length_cons]
      omega
    rw [hlen]
    simp only [List.cons_append, replaceAllF]
    rw [if_pos]
    · congr 1
      have hd : List.drop ((c :: t).length - 1) (t.append l) = l := by
        simp only [List.length_cons, Nat.add_sub_cancel]
        exact List.drop_left t l
      rw [hd]
      exact replaceAllF_no_occ _ _ _ _ h
    · constructor
      · have hpre := isPrefixOf_append_self (c :: t) l
        simp only [List.cons_append] at hpre
        exact hpre
      · simp

/-! Lemmas about the codec. -/

theorem ne_bar_of_digit {c : Char} (h : c.isDigit = true) :
    (c != '|') = true := by
  by_contra h'
  have hc : c = '|' := by
    have : (c == '|') = true := by
      cases hb : (c == '|') <;> simp [bne, hb] at h' ⊢
    exact eq_of_beq this
  subst hc
  exact absurd h (by decide)

theorem occursIn_marker_of_digits {l : List Char}
    (h : ∀ c ∈ l, c.isDigit = true) : occursIn marker.data l = false := by
  induction l with
  | nil => rfl
  | cons c t ih =>
    have hc : c.isDigit = true := h c (List.mem_cons_self c t)
    have hne : c ≠ 'B' := by
      intro e
      subst e
      exact absurd hc (by decide)
    have hB : (('B' : Char) == c) = false := by
      rw [beq_eq_false_iff_ne]
      exact fun e => hne e.symm
    have hm : marker.data = 'B' :: "ookingID:".data := rfl
    simp only [occursIn, Bool.or_eq_false_iff]
    constructor
    · rw [hm]
      simp [List.isPrefixOf, hB]
    · exact ih (fun d hd => h d (List.mem_cons_of_mem c hd))

/-- The decode computation on any text led by the marker: with an identifier
containing no bar and no further marker occurrence, followed by nothing or by
a bar-led remainder, `decode` returns exactly the identifier. -/
theorem decode_marker_led (s idStr rest : String)
    (hs : s.data = marker.data ++ idStr.data ++ rest.data)
    (h1 : ∀ c ∈ idStr.data, (c != '|') = true)
    (h2 : occursIn marker.data idStr.data = false)
    (h3 : rest.data.head? = some '|' ∨ rest.data = []) :
    decode s = Except.ok idStr := by
  have hocc : occursIn marker.data s.data = true := by
    rw [hs, List.append_assoc]
    exact occursIn_append_left _ _ (by decide)
  have hall : ∀ c ∈ marker.data ++ idStr.data, (c != '|') = true := by
    intro c hc
    rcases List.mem_append.mp hc with hc | hc
    · have hm : marker.data = ['B', 'o', 'o', 'k', 'i', 'n', 'g', 'I', 'D', ':'] := rfl
      rw [hm] at hc
      fin_cases hc <;> decide
    · exact h1 c hc
  have e1 : s.data.takeWhile (fun c => c != '|') = marker.data ++ idStr.data := by
    rw [hs, List.append_assoc, ← List.append_assoc]
    rw [List.takeWhile_append_of_pos hall]
    have e2 : rest.data.takeWhile (fun c => c != '|') = [] := by
      rcases h3 with h3 | h3
      · cases hr : rest.data with
        | nil => rfl
        | cons a t =>
          rw [hr] at h3
          have ha : a = '|' := by simpa using h3
          subst ha
          rw [List.takeWhile_cons_of_neg]
          simp
      · rw [h3]
        rfl
    rw [e2, List.append_nil]
  have e3 : replaceAll marker.data [] (marker.data ++ idStr.data) =
      idStr.data := by
    rw [replaceAll_pat_append marker.data [] idStr.data (by decide) h2]
    rfl
  rw [decode, if_pos hocc, e1, e3]

theorem decode_encode_aux (b : Booking) :
    decode (encode b) = Except.ok (toString b.id) := by
  apply decode_marker_led (encode b) (toString b.id)
    ("|Passenger:" ++ b.passenger ++ "|Route:" ++ b.route ++ "|Time:" ++
      b.time ++ "|Fare:" ++ fareText b.fare)
  · simp [encode, marker]
  · intro c hc
    rw [toString_nat_eq_repr] at hc
    exact ne_bar_of_digit (repr_all_digits b.id c hc)
  · rw [toString_nat_eq_repr]
    exact occursIn_marker_of_digits (repr_all_digits b.id)
  · left
    rfl

theorem idMatch_repr (n : Nat) : idMatch (Nat.repr n) n = true := by
  have hcond : (Nat.repr n).data ≠ [] ∧
      (Nat.repr n).data.all (fun c => c.isDigit) = true := by
    refine ⟨repr_data_ne_nil n, ?_⟩
    rw [List.all_eq_true]
    exact repr_all_digits n
  simp only [idMatch, sqliteNatOfText, if_pos hcond, decVal_repr]
  simp

theorem idMatch_repr_iff (n m : Nat) :
    idMatch (Nat.repr n) m = true ↔ m = n := by
  constructor
  · intro h
    have hcond : (Nat.repr n).data ≠ [] ∧
        (Nat.repr n).data.all (fun c => c.isDigit) = true := by
      refine ⟨repr_data_ne_nil n, ?_⟩
      rw [List.all_eq_true]
      exact repr_all_digits n
    simp only [idMatch, sqliteNatOfText, if_pos hcond, decVal_repr] at h
    exact (beq_iff_eq.mp h).symm
  · intro h
    rw [h]
    exact idMatch_repr n

/-! Lemmas about `pyStrip`. -/

theorem stripL_drop (l : List Char) :
    ((l.dropWhile Char.isWhitespace).rdropWhile
        Char.isWhitespace).dropWhile Char.isWhitespace =
      (l.dropWhile Char.isWhitespace).rdropWhile Char.isWhitespace := by
  set m := l.dropWhile Char.isWhitespace with hm
  have hmself : m.dropWhile Char.isWhitespace = m := by
    rw [hm]
    exact List.dropWhile_idempotent _ _
  obtain ⟨t, ht⟩ := List.rdropWhile_prefix Char.isWhitespace m
  cases hr : m.rdropWhile Char.isWhitespace with
  | nil => rfl
  | cons a r' =>
    have hmeq : m = a :: (r' ++ t) := by
      rw [← ht, hr]
      simp
    have ha : Char.isWhitespace a = false := by
      by_contra hcon
      have ha' : Char.isWhitespace a = true := by
        revert hcon
        cases Char.isWhitespace a <;> simp
      rw [hmeq, List.dropWhile_cons_of_pos ha'] at hmself
      have hlen := congrArg List.length hmself
      have hle := (List.dropWhile_sublist (l := r' ++ t)
        Char.isWhitespace).length_le
      simp only [List.length_cons] at hlen
      omega
    rw [List.dropWhile_cons_of_neg (by simp [ha])]

theorem pyStrip_idem (s : String) : pyStrip (pyStrip s) = pyStrip s := by
  show (⟨(((s.data.dropWhile Char.isWhitespace).rdropWhile
      Char.isWhitespace).dropWhile Char.isWhitespace).rdropWhile
      Char.isWhitespace⟩ : String) = pyStrip s
  rw [stripL_drop, List.rdropWhile_idempotent]
  rfl

/-! Lemmas about the service operations. -/

theorem book_ticket_ok {st : DBState} {nameInput : String} {sel : Option Route}
    {st' : DBState} {b : Booking} {payload : String}
    (h : book_ticket st nameInput sel = Except.ok (st', b, payload)) :
    ∃ r, sel = some r ∧ pyStrip nameInput ≠ "" ∧
      b = { id := st.nextBookingId, passenger := pyStrip nameInput,
            route := r.busNo ++ ": " ++ r.src ++ "-" ++ r.dest,
            time := r.time, fare := r.fare, status := "Booked" } ∧
      st' = { st with bookings := st.bookings ++ [b],
                      nextBookingId := st.nextBookingId + 1 } ∧
      payload = encode b := by
  cases sel with
  | none => simp [book_ticket] at h
  | some r =>
    by_cases hp : pyStrip nameInput = ""
    · simp [book_ticket, hp] at h
    · refine ⟨r, rfl, hp, ?_⟩
      simp only [book_ticket, if_neg hp, Except.ok.injEq, Prod.mk.injEq] at h
      obtain ⟨h1, h2, h3⟩ := h
      refine ⟨h2.symm, ?_, ?_⟩
      · rw [← h1, h2]
      · rw [← h3, h2]

theorem validate_ok {st : DBState} {raw m ts : String} {st' : DBState}
    {bid : String} (h : validate st raw m ts = Except.ok (st', bid)) :
    decode raw = Except.ok bid ∧
      st' = add_log (markValidated st bid) bid m ts := by
  cases hd : decode raw with
  | error e => simp [validate, hd] at h
  | ok bid' =>
    simp only [validate, hd, Except.ok.injEq, Prod.mk.injEq] at h
    obtain ⟨h1, h2⟩ := h
    subst h2
    exact ⟨rfl, h1.symm⟩

theorem validate_eq {st : DBState} {raw bid : String} (m ts : String)
    (h : decode raw = Except.ok bid) :
    validate st raw m ts =
      Except.ok (add_log (markValidated st bid) bid m ts, bid) := by
  simp [validate, h]

theorem markValidated_bookings (st : DBState) (bid : String) :
    (markValidated st bid).bookings =
      st.bookings.map (fun b =>
        if idMatch bid b.id then { b with status := "Validated" } else b) :=
  rfl

theorem markValidated_logs (st : DBState) (bid : String) :
    (markValidated st bid).logs = st.logs := rfl

theorem markValidated_nextLogId (st : DBState) (bid : String) :
    (markValidated st bid).nextLogId = st.nextLogId := rfl

theorem markValidated_nextBookingId (st : DBState) (bid : String) :
    (markValidated st bid).nextBookingId = st.nextBookingId := rfl

theorem add_log_bookings (st : DBState) (bid m ts : String) :
    (add_log st bid m ts).bookings = st.bookings := rfl

theorem add_log_logs (st : DBState) (bid m ts : String) :
    (add_log st bid m ts).logs =
      st.logs ++ [{ logId := st.nextLogId, bookingId := bid, method := m,
                    timestamp := ts }] := rfl

theorem add_log_nextLogId (st : DBState) (bid m ts : String) :
    (add_log st bid m ts).nextLogId = st.nextLogId + 1 := rfl

theorem marked_id (bid : String) (b : Booking) :
    (if idMatch bid b.id then { b with status := "Validated" } else b).id =
      b.id := by
  by_cases h : idMatch bid b.id <;> simp [h]

theorem markValidated_repr_bookings (st : DBState) (n : Nat) :
    (markValidated st (Nat.repr n)).bookings =
      st.bookings.map (fun bk =>
        if bk.id = n then { bk with status := "Validated" } else bk) := by
  rw [markValidated_bookings]
  apply List.map_congr_left
  intro bk _
  by_cases hb : bk.id = n
  · rw [if_pos ((idMatch_repr_iff n bk.id).mpr hb), if_pos hb]
  · rw [if_neg (fun hh => hb ((idMatch_repr_iff n bk.id).mp hh)), if_neg hb]

theorem marked_map_idem (bid : String) (l : List Booking) :
    (l.map (fun b =>
        if idMatch bid b.id then { b with status := "Validated" } else b)).map
      (fun b =>
        if idMatch bid b.id then { b with status := "Validated" } else b) =
      l.map (fun b =>
        if idMatch bid b.id then { b with status := "Validated" } else b) := by
  rw [List.map_map]
  apply List.map_congr_left
  intro b _
  simp only [Function.comp]
  by_cases h : idMatch bid b.id
  · simp [h]
  · simp [h]

/-! The store invariant behind the status lifecycle: booking ids are all
below the AUTOINCREMENT counter and pairwise distinct. -/

def StoreInv (st : DBState) : Prop :=
  (∀ b ∈ st.bookings, b.id < st.nextBookingId) ∧
  (st.bookings.map Booking.id).Nodup

theorem step_preserves_inv {st st' : DBState} (hstep : Step st st')
    (hinv : StoreInv st) : StoreInv st' := by
  cases hstep with
  | bookStep nameInput sel b payload h =>
    obtain ⟨r, hsel, hp, hb, hst', hpay⟩ := book_ticket_ok h
    subst hst'
    constructor
    · intro bk hbk
      simp only [List.mem_append, List.mem_singleton] at hbk
      rcases hbk with hbk | hbk
      · exact Nat.lt_succ_of_lt (hinv.1 bk hbk)
      · subst hbk
        rw [hb]
        exact Nat.lt_succ_self _
    · simp only [List.map_append, List.map_cons, List.map_nil]
      rw [List.nodup_append]
      refine ⟨hinv.2, List.nodup_singleton _, ?_⟩
      intro a ha ha'
      simp only [List.mem_singleton] at ha'
      obtain ⟨bk, hbk, rfl⟩ := List.mem_map.mp ha
      have hlt := hinv.1 bk hbk
      rw [ha', hb] at hlt
      exact absurd hlt (by simp)
  | validateStep raw m ts bid h =>
    obtain ⟨hd, hst'⟩ := validate_ok h
    subst hst'
    constructor
    · intro bk hbk
      rw [add_log_bookings, markValidated_bookings] at hbk
      obtain ⟨b₀, hb₀, rfl⟩ := List.mem_map.mp hbk
      rw [marked_id]
      exact hinv.1 b₀ hb₀
    · rw [add_log_bookings, markValidated_bookings, List.map_map]
      have he : (Booking.id ∘ fun b =>
          if idMatch bid b.id then { b with status := "Validated" } else b) =
          Booking.id := by
        funext b
        simp only [Function.comp]
        exact marked_id bid b
      rw [he]
      exact hinv.2

theorem reach_inv {st : DBState} (h : Reach st) : StoreInv st := by
  induction h with
  | refl =>
    constructor
    · intro b hb
      cases hb
    · exact List.nodup_nil
  | tail hsteps hstep ih => exact step_preserves_inv hstep ih

/-! Concrete sample values, for evaluating the operations at explicit
inputs. -/

/-- A sample route catalog row. -/
def sampleRoute : Route :=
  { busNo := "12A", src := "CityX", dest := "CityY", time := "09:00",
    fare := 50 }

/-- The booking created for passenger Asha on `sampleRoute` in the fresh
store. -/
def bAsha : Booking :=
  { id := 1, passenger := "Asha", route := "12A: CityX-CityY",
    time := "09:00", fare := 50, status := "Booked" }

/-- The store right after that booking. -/
def stAsha : DBState :=
  { bookings := [bAsha], logs := [], nextBookingId := 2, nextLogId := 1 }

/-- Its payload. -/
def pAsha : String :=
  "BookingID:1|Passenger:Asha|Route:12A: CityX-CityY|Time:09:00|Fare:50/1"

/-! The claims. -/

/-- Claim C1 (counterexample): the text `"x|BookingID:5"` contains the
marker, and the substring between the marker and the first bar following it
(here: the end of the text) is `"5"`, as `specDecode` — the decoder as the
specification words it — returns; but the code splits the whole text at its
first bar and returns `"x"`. -/
theorem decode_before_first_bar_counterexample :
    decode "x|BookingID:5" = Except.ok "x" ∧
      specDecode "x|BookingID:5" = Except.ok "5" ∧
      ("x" : String) ≠ "5" := by
  refine ⟨by decide, by decide, by decide⟩

/-- Claim C1 (amended): the code's decoder takes the prefix of the text
before the first bar of the whole text (the whole text if none) and removes
every occurrence of the marker from it.  On texts that begin with the marker
followed by an identifier free of bars and of further marker occurrences —
every payload this system emits has that shape — this equals the substring
between the marker and the first following bar (or the end of the text). -/
theorem decode_extracts_id_after_leading_marker (idStr rest : String)
    (h1 : ∀ c ∈ idStr.data, c ≠ '|')
    (h2 : occursIn marker.data idStr.data = false)
    (h3 : rest.data.head? = some '|' ∨ rest = "") :
    decode (marker ++ idStr ++ rest) = Except.ok idStr := by
  apply decode_marker_led _ idStr rest
  · simp
  · intro c hc
    simpa using h1 c hc
  · exact h2
  · rcases h3 with h3 | h3
    · exact Or.inl h3
    · right
      rw [h3]

/-- Witness for the amended C1 at a concrete input. -/
theorem decode_extracts_id_after_leading_marker_witness :
    (∀ c ∈ ("57" : String).data, c ≠ '|') ∧
      occursIn marker.data ("57" : String).data = false ∧
      decode (marker ++ "57" ++ "|Passenger:Asha") = Except.ok "57" :=
  ⟨by decide, by decide,
    decode_extracts_id_after_leading_marker "57" "|Passenger:Asha" (by decide)
      (by decide) (by decide)⟩

/-- Claim C2: decoding the payload produced for a booking yields exactly the
booking's id — the decoded text is the decimal rendering of the id, and that
text denotes the same id in the store's id comparison. -/
theorem decode_encode_roundtrip (b : Booking) :
    decode (encode b) = Except.ok (toString b.id) ∧
      idMatch (toString b.id) b.id = true := by
  refine ⟨decode_encode_aux b, ?_⟩
  rw [toString_nat_eq_repr]
  exact idMatch_repr b.id

/-- Claim C5 (counterexample): the whitespace-only passenger name is not the
empty string and a route is selected, yet `book_ticket` rejects it with
ValidationError instead of persisting a booking. -/
theorem book_rejects_whitespace_name :
    book_ticket initState " " (some sampleRoute) =
        Except.error BookErr.validationError ∧
      (" " : String) ≠ "" ∧ some sampleRoute ≠ (none : Option Route) := by
  refine ⟨by decide, by decide, by decide⟩

/-- Claim C5 (amended): `book_ticket` fails with ValidationError — returning
no new state, so the store is unchanged — whenever the passenger name strips
to empty (empty or whitespace-only) or no route is selected; otherwise it
persists exactly one new Booking with status `"Booked"` under the next id
and returns it together with its encoded payload. -/
theorem book_ticket_spec (st : DBState) (nameInput : String)
    (sel : Option Route) :
    (pyStrip nameInput = "" ∨ sel = none →
      book_ticket st nameInput sel = Except.error BookErr.validationError) ∧
    (∀ r, sel = some r → pyStrip nameInput ≠ "" →
      book_ticket st nameInput sel =
        Except.ok
          ({ st with
              bookings := st.bookings ++
                [{ id := st.nextBookingId, passenger := pyStrip nameInput,
                   route := r.busNo ++ ": " ++ r.src ++ "-" ++ r.dest,
                   time := r.time, fare := r.fare, status := "Booked" }],
              nextBookingId := st.nextBookingId + 1 },
           { id := st.nextBookingId, passenger := pyStrip nameInput,
             route := r.busNo ++ ": " ++ r.src ++ "-" ++ r.dest,
             time := r.time, fare := r.fare, status := "Booked" },
           encode
             { id := st.nextBookingId, passenger := pyStrip nameInput,
               route := r.busNo ++ ": " ++ r.src ++ "-" ++ r.dest,
               time := r.time, fare := r.fare, status := "Booked" })) := by
  constructor
  · rintro (hp | hsel)
    · cases sel with
      | none => rfl
      | some r => simp [book_ticket, hp]
    · rw [hsel]
      rfl
  · rintro r rfl hp
    simp [book_ticket, hp]

/-- Witness for the amended C5: the failing branch at a whitespace-only name
and the success branch at a stripped name, both at explicit inputs. -/
theorem book_ticket_spec_witness :
    (pyStrip " " = "" ∨ (some sampleRoute : Option Route) = none) ∧
      book_ticket initState " " (some sampleRoute) =
        Except.error BookErr.validationError ∧
      pyStrip " Asha " ≠ "" ∧
      book_ticket initState " Asha " (some sampleRoute) =
        Except.ok
          ({ initState with
              bookings := initState.bookings ++
                [{ id := initState.nextBookingId,
                   passenger := pyStrip " Asha ",
                   route := sampleRoute.busNo ++ ": " ++ sampleRoute.src ++
                     "-" ++ sampleRoute.dest,
                   time := sampleRoute.time, fare := sampleRoute.fare,
                   status := "Booked" }],
              nextBookingId := initState.nextBookingId + 1 },
           { id := initState.nextBookingId, passenger := pyStrip " Asha ",
             route := sampleRoute.busNo ++ ": " ++ sampleRoute.src ++ "-" ++
               sampleRoute.dest,
             time := sampleRoute.time, fare := sampleRoute.fare,
             status := "Booked" },
           encode
             { id := initState.nextBookingId, passenger := pyStrip " Asha ",
               route := sampleRoute.busNo ++ ": " ++ sampleRoute.src ++ "-" ++
                 sampleRoute.dest,
               time := sampleRoute.time, fare := sampleRoute.fare,
               status := "Booked" }) :=
  ⟨Or.inl (by decide),
   (book_ticket_spec initState " " (some sampleRoute)).1 (Or.inl (by decide)),
   by decide,
   (book_ticket_spec initState " Asha " (some sampleRoute)).2 sampleRoute rfl
     (by decide)⟩

/-- Claim C6: `decode` fails with FormatError exactly when the text does not
contain the literal marker; in particular the input `"garbage"` fails. -/
theorem decode_formatError_iff :
    (∀ s : String, decode s = Except.error DecodeErr.formatError ↔
      occursIn marker.data s.data = false) ∧
    decode "garbage" = Except.error DecodeErr.formatError := by
  constructor
  · intro s
    cases hocc : occursIn marker.data s.data <;> simp [decode, hocc]
  · decide

/-- Claim C7: updating against an id text that matches no persisted booking
succeeds — `markValidated` is a total function, the code raises nothing —
and leaves the store exactly unchanged: no row modified, no row created. -/
theorem markValidated_no_match (st : DBState) (bid : String)
    (h : ∀ b ∈ st.bookings, idMatch bid b.id = false) :
    markValidated st bid = st := by
  have hmap : st.bookings.map (fun b =>
      if idMatch bid b.id then { b with status := "Validated" } else b) =
      st.bookings := by
    have hid : ∀ b ∈ st.bookings,
        (if idMatch bid b.id then { b with status := "Validated" } else b) =
          id b := by
      intro b hb
      rw [if_neg (by simp [h b hb])]
      rfl
    rw [List.map_congr_left hid, List.map_id]
  cases st with
  | mk bks lgs nb nl =>
    exact congrArg (fun x => DBState.mk x lgs nb nl) hmap

/-- Witness for C7 at a concrete store and a concrete unmatched id. -/
theorem markValidated_no_match_witness :
    (∀ b ∈ (DBState.mk [bAsha] [] 2 1).bookings, idMatch "999" b.id = false) ∧
      markValidated ⟨[bAsha], [], 2, 1⟩ "999" = ⟨[bAsha], [], 2, 1⟩ :=
  ⟨by decide, markValidated_no_match ⟨[bAsha], [], 2, 1⟩ "999" (by decide)⟩

/-- A booking updated by `markValidated` keeps its passenger. -/
theorem marked_passenger (bid : String) (b : Booking) :
    (if idMatch bid b.id then { b with status := "Validated" } else b).passenger
      = b.passenger := by
  by_cases h : idMatch bid b.id <;> simp [h]

/-- A booking updated by `markValidated` ends with its old status or with
`"Validated"`. -/
theorem marked_status_cases (bid : String) (b : Booking) :
    (if idMatch bid b.id then { b with status := "Validated" } else b).status
        = b.status ∨
      (if idMatch bid b.id then { b with status := "Validated" } else b).status
        = "Validated" := by
  by_cases h : idMatch bid b.id <;> simp [h]

/-- After `markValidated` under the decimal rendering of `n`, every booking
row carrying id `n` has status `"Validated"`. -/
theorem marked_status_of_id {st : DBState} {n : Nat} {b' : Booking}
    (hmem : b' ∈ (markValidated st (Nat.repr n)).bookings)
    (hid : b'.id = n) : b'.status = "Validated" := by
  rw [markValidated_repr_bookings] at hmem
  obtain ⟨b₀, hb₀, rfl⟩ := List.mem_map.mp hmem
  by_cases hcase : b₀.id = n
  · simp [hcase]
  · rw [if_neg hcase] at hid
    exact absurd hid hcase

/-- Claim C3: for a payload produced by `book_ticket`, each call of
`validate` on it succeeds with the booking's id, turns the status of every
booking row carrying that id to `"Validated"` while touching no other row and
no other field, and appends exactly one validation log carrying the supplied
method. -/
theorem validate_payload_effect
    {st : DBState} {nameInput : String} {sel : Option Route} {st' : DBState}
    {b : Booking} {payload : String}
    (h : book_ticket st nameInput sel = Except.ok (st', b, payload))
    (st₂ : DBState) (m ts : String) :
    ∃ st₃,
      validate st₂ payload m ts = Except.ok (st₃, toString b.id) ∧
      st₃.bookings = st₂.bookings.map (fun bk =>
        if bk.id = b.id then { bk with status := "Validated" } else bk) ∧
      (∀ b' ∈ st₃.bookings, b'.id = b.id → b'.status = "Validated") ∧
      st₃.logs = st₂.logs ++
        [{ logId := st₂.nextLogId, bookingId := toString b.id, method := m,
           timestamp := ts }] := by
  have hdec : decode payload = Except.ok (toString b.id) := by
    obtain ⟨r, hsel, hp, hb, hst', hpay⟩ := book_ticket_ok h
    rw [hpay]
    exact decode_encode_aux b
  refine ⟨_, validate_eq m ts hdec, ?_, ?_, ?_⟩
  · rw [add_log_bookings, toString_nat_eq_repr]
    exact markValidated_repr_bookings st₂ b.id
  · intro b' hb' hid
    rw [add_log_bookings, toString_nat_eq_repr] at hb'
    exact marked_status_of_id hb' hid
  · rw [add_log_logs, markValidated_logs, markValidated_nextLogId]

/-- Witness for C3: the Asha booking in the fresh store, validated from the
image path. -/
theorem validate_payload_effect_witness :
    book_ticket initState "Asha" (some sampleRoute) =
        Except.ok (stAsha, bAsha, pAsha) ∧
      (∃ st₃,
        validate initState pAsha "Image" "t0" =
          Except.ok (st₃, toString bAsha.id) ∧
        st₃.bookings = initState.bookings.map (fun bk =>
          if bk.id = bAsha.id then { bk with status := "Validated" }
          else bk) ∧
        (∀ b' ∈ st₃.bookings, b'.id = bAsha.id →
          b'.status = "Validated") ∧
        st₃.logs = initState.logs ++
          [{ logId := initState.nextLogId, bookingId := toString bAsha.id,
             method := "Image", timestamp := "t0" }]) :=
  ⟨by decide,
   @validate_payload_effect initState "Asha" (some sampleRoute) stAsha bAsha
     pAsha (by decide) initState "Image" "t0"⟩

/-- Claim C4: validating the same payload twice leaves the status
`"Validated"` — the second call changes no booking row at all — while the
validation-log table gains one row per call, two in total. -/
theorem validate_twice
    {st : DBState} {nameInput : String} {sel : Option Route} {st' : DBState}
    {b : Booking} {payload : String}
    (h : book_ticket st nameInput sel = Except.ok (st', b, payload))
    (st₂ : DBState) (m1 ts1 m2 ts2 : String) :
    ∃ st₃ st₄,
      validate st₂ payload m1 ts1 = Except.ok (st₃, toString b.id) ∧
      validate st₃ payload m2 ts2 = Except.ok (st₄, toString b.id) ∧
      st₄.bookings = st₃.bookings ∧
      (∀ b' ∈ st₄.bookings, b'.id = b.id → b'.status = "Validated") ∧
      st₃.logs = st₂.logs ++
        [{ logId := st₂.nextLogId, bookingId := toString b.id, method := m1,
           timestamp := ts1 }] ∧
      st₄.logs = st₃.logs ++
        [{ logId := st₃.nextLogId, bookingId := toString b.id, method := m2,
           timestamp := ts2 }] := by
  have hdec : decode payload = Except.ok (toString b.id) := by
    obtain ⟨r, hsel, hp, hb, hst', hpay⟩ := book_ticket_ok h
    rw [hpay]
    exact decode_encode_aux b
  refine ⟨_, _, validate_eq m1 ts1 hdec, validate_eq m2 ts2 hdec,
    ?_, ?_, ?_, ?_⟩
  · rw [add_log_bookings, markValidated_bookings, add_log_bookings,
      markValidated_bookings]
    exact marked_map_idem _ _
  · intro b' hb' hid
    rw [add_log_bookings, toString_nat_eq_repr] at hb'
    exact marked_status_of_id hb' hid
  · rw [add_log_logs, markValidated_logs, markValidated_nextLogId]
  · rw [add_log_logs, markValidated_logs, markValidated_nextLogId]

/-- Witness for C4: the Asha payload validated twice in the fresh store. -/
theorem validate_twice_witness :
    book_ticket initState "Asha" (some sampleRoute) =
        Except.ok (stAsha, bAsha, pAsha) ∧
      (∃ st₃ st₄,
        validate initState pAsha "Image" "t1" =
          Except.ok (st₃, toString bAsha.id) ∧
        validate st₃ pAsha "Webcam" "t2" =
          Except.ok (st₄, toString bAsha.id) ∧
        st₄.bookings = st₃.bookings ∧
        (∀ b' ∈ st₄.bookings, b'.id = bAsha.id →
          b'.status = "Validated") ∧
        st₃.logs = initState.logs ++
          [{ logId := initState.nextLogId, bookingId := toString bAsha.id,
             method := "Image", timestamp := "t1" }] ∧
        st₄.logs = st₃.logs ++
          [{ logId := st₃.nextLogId, bookingId := toString bAsha.id,
             method := "Webcam", timestamp := "t2" }]) :=
  ⟨by decide,
   @validate_twice initState "Asha" (some sampleRoute) stAsha bAsha pAsha
     (by decide) initState "Image" "t1" "Webcam" "t2"⟩

/-- Claim C8: in every state reachable by booking and validation operations
every booking's status is `"Booked"` or `"Validated"`; any step creates new
bookings (ids unseen in the pre-state) only with status `"Booked"`; and no
step moves the status of an existing booking away from `"Validated"`. -/
theorem status_lifecycle (st : DBState) (h : Reach st) :
    (∀ b ∈ st.bookings, b.status = "Booked" ∨ b.status = "Validated") ∧
    (∀ st', Step st st' →
      (∀ b' ∈ st'.bookings, (∀ b ∈ st.bookings, b.id ≠ b'.id) →
        b'.status = "Booked") ∧
      (∀ b ∈ st.bookings, b.status = "Validated" →
        ∀ b' ∈ st'.bookings, b'.id = b.id → b'.status = "Validated")) := by
  constructor
  · induction h with
    | refl =>
      intro b hb
      cases hb
    | tail hsteps hstep ih =>
      cases hstep with
      | bookStep nameInput sel b payload hbk =>
        obtain ⟨r, hsel, hp, hb, hst', hpay⟩ := book_ticket_ok hbk
        subst hst'
        intro bk hbk'
        simp only [List.mem_append, List.mem_singleton] at hbk'
        rcases hbk' with hbk' | hbk'
        · exact ih bk hbk'
        · subst hbk'
          rw [hb]
          exact Or.inl rfl
      | validateStep raw m ts bid hv =>
        obtain ⟨hd, hst'⟩ := validate_ok hv
        subst hst'
        intro bk hbk'
        rw [add_log_bookings, markValidated_bookings] at hbk'
        obtain ⟨b₀, hb₀, rfl⟩ := List.mem_map.mp hbk'
        rcases marked_status_cases bid b₀ with hs | hs
        · rw [hs]
          exact ih b₀ hb₀
        · rw [hs]
          exact Or.inr rfl
  · have hinv := reach_inv h
    intro st' hstep
    cases hstep with
    | bookStep nameInput sel b payload hbk =>
      obtain ⟨r, hsel, hp, hb, hst', hpay⟩ := book_ticket_ok hbk
      subst hst'
      constructor
      · intro b' hb' hnew
        simp only [List.mem_append, List.mem_singleton] at hb'
        rcases hb' with hb' | hb'
        · exact absurd rfl (hnew b' hb')
        · subst hb'
          rw [hb]
      · intro bk hbk' hval b' hb' hid
        simp only [List.mem_append, List.mem_singleton] at hb'
        rcases hb' with hb' | hb'
        · have heq : b' = bk :=
            List.inj_on_of_nodup_map hinv.2 hb' hbk' hid
          rw [heq]
          exact hval
        · subst hb'
          have hlt := hinv.1 bk hbk'
          rw [← hid, hb] at hlt
          exact absurd hlt (by simp)
    | validateStep raw m ts bid hv =>
      obtain ⟨hd, hst'⟩ := validate_ok hv
      subst hst'
      constructor
      · intro b' hb' hnew
        rw [add_log_bookings, markValidated_bookings] at hb'
        obtain ⟨b₀, hb₀, rfl⟩ := List.mem_map.mp hb'
        exact absurd (marked_id bid b₀).symm (hnew b₀ hb₀)
      · intro bk hbk' hval b' hb' hid
        rw [add_log_bookings, markValidated_bookings] at hb'
        obtain ⟨b₀, hb₀, rfl⟩ := List.mem_map.mp hb'
        have hid₀ : b₀.id = bk.id := by
          rw [← marked_id bid b₀]
          exact hid
        have heq : b₀ = bk :=
          List.inj_on_of_nodup_map hinv.2 hb₀ hbk' hid₀
        subst heq
        by_cases hcase : idMatch bid b₀.id
        · simp [hcase]
        · rw [if_neg hcase]
          exact hval

/-- Witness for C8 at the fresh store. -/
theorem status_lifecycle_witness :
    (∀ b ∈ initState.bookings,
      b.status = "Booked" ∨ b.status = "Validated") ∧
    (∀ st', Step initState st' →
      (∀ b' ∈ st'.bookings, (∀ b ∈ initState.bookings, b.id ≠ b'.id) →
        b'.status = "Booked") ∧
      (∀ b ∈ initState.bookings, b.status = "Validated" →
        ∀ b' ∈ st'.bookings, b'.id = b.id → b'.status = "Validated")) :=
  status_lifecycle initState Relation.ReflTransGen.refl

/-- Claim C9: the passenger name is stripped of surrounding whitespace
before the emptiness check and before persisting: a name that strips to
empty is rejected exactly like the empty name, the persisted passenger field
is the stripped input, and in every reachable state every persisted
passenger is strip-invariant — it carries no surrounding whitespace. -/
theorem book_strips_passenger :
    (∀ (st : DBState) (nameInput : String) (sel : Option Route),
      pyStrip nameInput = "" →
      book_ticket st nameInput sel = book_ticket st "" sel) ∧
    (∀ (st : DBState) (nameInput : String) (sel : Option Route)
      (st' : DBState) (b : Booking) (payload : String),
      book_ticket st nameInput sel = Except.ok (st', b, payload) →
      b.passenger = pyStrip nameInput) ∧
    (∀ st : DBState, Reach st →
      ∀ b ∈ st.bookings, pyStrip b.passenger = b.passenger) := by
  refine ⟨?_, ?_, ?_⟩
  · intro st nameInput sel hp
    cases sel with
    | none => rfl
    | some r =>
      have h0 : pyStrip "" = "" := rfl
      simp [book_ticket, hp, h0]
  · intro st nameInput sel st' b payload h
    obtain ⟨r, hsel, hp, hb, hst', hpay⟩ := book_ticket_ok h
    rw [hb]
  · intro st h
    induction h with
    | refl =>
      intro b hb
      cases hb
    | tail hsteps hstep ih =>
      cases hstep with
      | bookStep nameInput sel b payload hbk =>
        obtain ⟨r, hsel, hp, hb, hst', hpay⟩ := book_ticket_ok hbk
        subst hst'
        intro bk hbk'
        simp only [List.mem_append, List.mem_singleton] at hbk'
        rcases hbk' with hbk' | hbk'
        · exact ih bk hbk'
        · subst hbk'
          rw [hb]
          exact pyStrip_idem nameInput
      | validateStep raw m ts bid hv =>
        obtain ⟨hd, hst'⟩ := validate_ok hv
        subst hst'
        intro bk hbk'
        rw [add_log_bookings, markValidated_bookings] at hbk'
        obtain ⟨b₀, hb₀, rfl⟩ := List.mem_map.mp hbk'
        rw [marked_passenger]
        exact ih b₀ hb₀

/-- Witness for C9: whitespace-only rejection, the stripped persisted name,
and strip-invariance in the fresh store. -/
theorem book_strips_passenger_witness :
    book_ticket initState "  " (some sampleRoute) =
        book_ticket initState "" (some sampleRoute) ∧
      bAsha.passenger = pyStrip " Asha " ∧
      (∀ b ∈ initState.bookings, pyStrip b.passenger = b.passenger) :=
  ⟨book_strips_passenger.1 initState "  " (some sampleRoute) (by decide),
   book_strips_passenger.2.1 initState " Asha " (some sampleRoute) stAsha
     bAsha pAsha (by decide),
   book_strips_passenger.2.2 initState Relation.ReflTransGen.refl⟩

/-- Claim C10: the startup block (lines 17-40) first drops any pre-existing
`bookings` and `validation_logs` tables and then recreates them, so whatever
the database file held before the run, after setup both tables exist and are
empty and AUTOINCREMENT id assignment restarts from 1: every run starts from
`initState`. -/
theorem dbSetup_resets (d : RawDB) :
    dbSetup d = { bookingsTab := some ([], 1), logsTab := some ([], 1) } ∧
      loadState (dbSetup d) = some initState ∧
      initState.bookings = [] ∧ initState.logs = [] ∧
      initState.nextBookingId = 1 ∧ initState.nextLogId = 1 := by
  exact ⟨rfl, rfl, rfl, rfl, rfl, rfl⟩

end TicketSys
